import Mathlib

/-!
Verification development for the app_meshed graph-composition service.

The embedding follows `app_meshed/services/dag_service.py` and
`app_meshed/services/function_registry.py`.  The external `meshed` library
(DAG construction and DAG call) is not part of the repository; its behaviour
is modelled from the specification (sections 4.1 and 4.2) and each such
definition carries a doc comment saying so.
-/

set_option maxHeartbeats 1000000

namespace AppMeshed

/-! Association lists with Python-dict semantics: lookup, insert (replace in
place, append when new) and delete. -/

def dlookup {α : Type} : List (String × α) → String → Option α
  | [], _ => none
  | (k, v) :: rest, key => if k = key then some v else dlookup rest key

def dictInsert {α : Type} : List (String × α) → String → α → List (String × α)
  | [], key, v => [(key, v)]
  | (k, w) :: rest, key, v =>
    if k = key then (key, v) :: rest else (k, w) :: dictInsert rest key v

def dictErase {α : Type} : List (String × α) → String → List (String × α)
  | [], _ => []
  | (k, w) :: rest, key => if k = key then rest else (k, w) :: dictErase rest key

/-! Values exchanged between the service and the caller: JSON-shaped data
(integers, strings, and string-keyed mappings such as node-scoped override
maps and multi-sink result mappings). -/

inductive Value : Type where
  | int : Int → Value
  | str : String → Value
  | vmap : List (String × Value) → Value

/-! Python exceptions raised by the service, with their rendered str(e). -/

inductive PyErr : Type where
  | keyError : String → PyErr
  | valueError : String → PyErr
  | runtimeError : String → PyErr

def PyErr.msg : PyErr → String
  | .keyError m => "\x27" ++ m ++ "\x27"
  | .valueError m => m
  | .runtimeError m => m

/-! Function registry (`function_registry.py`).  A registered callable is a
parameter-name list plus an implementation on argument lists. -/

structure Func : Type where
  params : List String
  impl : List Value → Except String Value

structure FunctionMetadata : Type where
  name : String
  parameters : List String

structure FunctionRegistry : Type where
  functions : List (String × Func)
  metadata : List (String × FunctionMetadata)

/-- Modelled from the spec: metadata extraction (`_extract_metadata`) uses the
external i2.Sig introspection; it is abstracted to the ordered parameter-name
list, which is all the registry invariants depend on. -/
def extractMetadata (name : String) (func : Func) : FunctionMetadata :=
  { name := name, parameters := func.params }

def FunctionRegistry.register (reg : FunctionRegistry) (name : String) (func : Func)
    (override : Bool) : Except PyErr FunctionRegistry :=
  if (dlookup reg.functions name).isSome && !override then
    .error (.valueError
      ("Function \x27" ++ name ++ "\x27 already registered. Use override=True to replace."))
  else
    .ok { functions := dictInsert reg.functions name func,
          metadata := dictInsert reg.metadata name (extractMetadata name func) }

def FunctionRegistry.get_function (reg : FunctionRegistry) (name : String) :
    Except PyErr Func :=
  match dlookup reg.functions name with
  | none => .error (.keyError ("Function \x27" ++ name ++ "\x27 not found in registry"))
  | some f => .ok f

def FunctionRegistry.get_metadata (reg : FunctionRegistry) (name : String) :
    Except PyErr FunctionMetadata :=
  match dlookup reg.metadata name with
  | none => .error (.keyError ("Function \x27" ++ name ++ "\x27 not found in registry"))
  | some m => .ok m

def FunctionRegistry.unregister (reg : FunctionRegistry) (name : String) :
    Except PyErr FunctionRegistry :=
  if (dlookup reg.functions name).isNone then
    .error (.keyError ("Function \x27" ++ name ++ "\x27 not found in registry"))
  else
    .ok { functions := dictErase reg.functions name,
          metadata := dictErase reg.metadata name }

def FunctionRegistry.list_functions (reg : FunctionRegistry) : List String :=
  reg.functions.map Prod.fst

/-! Graph descriptions (`json_to_dag` input).  Every field is optional because
the source reads them with `dict.get` / `dict[...]`. -/

structure NodeEntry : Type where
  id : Option String
  function : Option String
  output_name : Option String

structure EdgeEntry : Type where
  source : Option String
  target : Option String
  sourceOutput : Option String
  targetInput : Option String

structure DagConfig : Type where
  name : Option String
  nodes : Option (List NodeEntry)
  edges : Option (List EdgeEntry)
  params : Option (List (String × List (String × Value)))

/-! The internal graph: resolved callables keyed by node id, and the binding
map {target node ↦ {target parameter ↦ source node}} built from the edges. -/

structure Dag : Type where
  funcs : List (String × Func)
  binds : List (String × List (String × String))

def checkPBs (ids : List String) : List (String × String) → Except String Unit
  | [] => .ok ()
  | (_, s) :: rest =>
    if s ∈ ids then checkPBs ids rest else .error ("Unknown node reference: " ++ s)

def checkBinds (ids : List String) :
    List (String × List (String × String)) → Except String Unit
  | [] => .ok ()
  | (t, pbs) :: rest =>
    if t ∈ ids then
      match checkPBs ids pbs with
      | .ok _ => checkBinds ids rest
      | .error m => .error m
    else .error ("Unknown node reference: " ++ t)

/-- Modelled from the spec: the external meshed DAG constructor
(`DAG(funcs, **binds)`).  It validates that every binding references node ids
present among the functions (section 4.1 step 3: unknown source or target node
id is a structural error) and performs no cycle check (section 4.1 step 4:
cycle detection is deferred to execution). -/
def mkDAG (funcs : List (String × Func)) (binds : List (String × List (String × String))) :
    Except String Dag :=
  match checkBinds (funcs.map Prod.fst) binds with
  | .ok _ => .ok { funcs := funcs, binds := binds }
  | .error m => .error m

def keyGet {α : Type} (o : Option α) (key : String) : Except PyErr α :=
  match o with
  | none => .error (.keyError key)
  | some v => .ok v

def buildFuncsAux (reg : FunctionRegistry) :
    List (String × Func) → List NodeEntry → Except PyErr (List (String × Func))
  | acc, [] => .ok acc
  | acc, nd :: rest => do
    let node_id ← keyGet nd.id "id"
    let func_name ← keyGet nd.function "function"
    match reg.get_function func_name with
    | .error _ =>
      .error (.valueError ("Function \x27" ++ func_name ++
        "\x27 not found in registry for node \x27" ++ node_id ++ "\x27"))
    | .ok func => buildFuncsAux reg (dictInsert acc node_id func) rest

def targetInputOf (e : EdgeEntry) : String :=
  e.targetInput.getD (e.sourceOutput.getD "value")

def bindsInsert (binds : List (String × List (String × String)))
    (target ti source : String) : List (String × List (String × String)) :=
  dictInsert binds target (dictInsert ((dlookup binds target).getD []) ti source)

def buildBindsAux :
    List (String × List (String × String)) → List EdgeEntry →
    Except PyErr (List (String × List (String × String)))
  | acc, [] => .ok acc
  | acc, e :: rest => do
    let source ← keyGet e.source "source"
    let target ← keyGet e.target "target"
    buildBindsAux (bindsInsert acc target (targetInputOf e) source) rest

def json_to_dag (reg : FunctionRegistry) (cfg : DagConfig) : Except PyErr Dag :=
  let _name := cfg.name.getD "unnamed_dag"
  let nodes := cfg.nodes.getD []
  let edges := cfg.edges.getD []
  let _params := cfg.params.getD []
  if nodes.isEmpty then .error (.valueError "DAG must have at least one node")
  else do
    let funcs ← buildFuncsAux reg [] nodes
    let binds ← buildBindsAux [] edges
    match mkDAG funcs binds with
    | .ok d => .ok d
    | .error m => .error (.valueError ("Error creating DAG: " ++ m))

/-! The executor, modelled from spec section 4.2: topological order with
declaration-order tie-breaking, per-parameter resolution (internal binding,
then node-scoped override, then global input, else missing argument), fail fast
on the first node failure, single-sink value or multi-sink mapping result. -/

def depsOf (binds : List (String × List (String × String))) (n : String) : List String :=
  ((dlookup binds n).getD []).map Prod.snd

def isReady (binds : List (String × List (String × String)))
    (done : List String) (n : String) : Bool :=
  (depsOf binds n).all (fun d => decide (d ∈ done))

def pickReady (binds : List (String × List (String × String)))
    (done : List String) : List String → Option String
  | [] => none
  | n :: rest => if isReady binds done n then some n else pickReady binds done rest

inductive MeshErr : Type where
  | cycle : String → MeshErr
  | missingArg : String → String → MeshErr
  | execError : String → String → MeshErr

def MeshErr.msg : MeshErr → String
  | .cycle n => "Cycle detected involving node " ++ n
  | .missingArg n p => "Missing required argument " ++ p ++ " for node " ++ n
  | .execError n m => "Error in node " ++ n ++ ": " ++ m

def removeFirst : List String → String → List String
  | [], _ => []
  | x :: rest, y => if x = y then rest else x :: removeFirst rest y

def topoAux (binds : List (String × List (String × String))) :
    Nat → List String → List String → Except MeshErr (List String)
  | _, [], done => .ok done.reverse
  | 0, n :: _, _ => .error (.cycle n)
  | fuel + 1, n :: rest, done =>
    match pickReady binds done (n :: rest) with
    | none => .error (.cycle n)
    | some m => topoAux binds fuel (removeFirst (n :: rest) m) (m :: done)

def topoSort (dag : Dag) : Except MeshErr (List String) :=
  let ids := dag.funcs.map Prod.fst
  topoAux dag.binds ids.length ids []

def resolveGlobal (inputs : List (String × Value)) (n p : String) : Except MeshErr Value :=
  match dlookup inputs p with
  | some v => .ok v
  | none => .error (.missingArg n p)

def nodeOverride (inputs : List (String × Value)) (n p : String) : Option Value :=
  match dlookup inputs n with
  | some (.vmap m) => dlookup m p
  | _ => none

def resolveParam (binds : List (String × List (String × String)))
    (computed inputs : List (String × Value)) (n p : String) : Except MeshErr Value :=
  match dlookup ((dlookup binds n).getD []) p with
  | some src =>
    match dlookup computed src with
    | some v => .ok v
    | none => .error (.execError n ("unresolved internal binding from " ++ src))
  | none =>
    match nodeOverride inputs n p with
    | some v => .ok v
    | none => resolveGlobal inputs n p

def execNodes (dag : Dag) (inputs : List (String × Value)) :
    List String → List (String × Value) → Except MeshErr (List (String × Value))
  | [], computed => .ok computed
  | n :: rest, computed =>
    match dlookup dag.funcs n with
    | none => .error (.execError n "unknown node in execution order")
    | some f => do
      let args ← f.params.mapM (resolveParam dag.binds computed inputs n)
      match f.impl args with
      | .error m => .error (.execError n m)
      | .ok v => execNodes dag inputs rest (dictInsert computed n v)

def isSourceIn (binds : List (String × List (String × String))) (n : String) : Bool :=
  binds.any (fun tp => tp.2.any (fun ps => ps.2 == n))

def sinksOf (dag : Dag) : List String :=
  (dag.funcs.map Prod.fst).filter (fun n => !(isSourceIn dag.binds n))

def resultOf (dag : Dag) (computed : List (String × Value)) : Except MeshErr Value :=
  match sinksOf dag with
  | [s] =>
    match dlookup computed s with
    | some v => .ok v
    | none => .error (.execError s "missing computed value")
  | _ => .ok (.vmap ((dag.funcs.map Prod.fst).map
      (fun n => (n, (dlookup computed n).getD (.str "missing")))))

/-- Modelled from the spec: calling the external meshed DAG object
(`dag(**inputs)` in `execute_dag`): topological ordering first, aborting with a
cycle error before invoking any callable, then node execution in order, then
the single-sink or mapping result shape (spec section 4.2). -/
def dagCall (dag : Dag) (inputs : List (String × Value)) : Except MeshErr Value := do
  let order ← topoSort dag
  let computed ← execNodes dag inputs order []
  resultOf dag computed

def execute_dag (dag : Dag) (inputs : List (String × Value)) : Except PyErr Value :=
  match dagCall dag inputs with
  | .ok v => .ok v
  | .error e => .error (.runtimeError ("DAG execution failed: " ++ e.msg))

structure ResultDict : Type where
  status : String
  result : Option Value
  error : Option String
  dag_name : String

def execute_from_config (reg : FunctionRegistry) (cfg : DagConfig)
    (inputs : List (String × Value)) : ResultDict :=
  match (json_to_dag reg cfg).bind (fun dag => execute_dag dag inputs) with
  | .ok v =>
    { status := "success", result := some v, error := none,
      dag_name := cfg.name.getD "unnamed" }
  | .error e =>
    { status := "error", result := none, error := some e.msg,
      dag_name := cfg.name.getD "unnamed" }

/-! Spec-side vocabulary used in the claim statements. -/

def configNodes (cfg : DagConfig) : List NodeEntry := cfg.nodes.getD []

def configEdges (cfg : DagConfig) : List EdgeEntry := cfg.edges.getD []

def isNodeId (cfg : DagConfig) (x : String) : Prop :=
  ∃ nd ∈ configNodes cfg, nd.id = some x

def nodeOkB (reg : FunctionRegistry) (nd : NodeEntry) : Bool :=
  nd.id.isSome &&
    (match nd.function with
     | some fn => (dlookup reg.functions fn).isSome
     | none => false)

def nodesOk (reg : FunctionRegistry) (cfg : DagConfig) : Prop :=
  (configNodes cfg).isEmpty = false ∧ ∀ nd ∈ configNodes cfg, nodeOkB reg nd = true

def funcUnresolvedB (reg : FunctionRegistry) (nd : NodeEntry) : Bool :=
  match nd.function with
  | some fn => (dlookup reg.functions fn).isNone
  | none => false

def edgesKeysOk (cfg : DagConfig) : Prop :=
  ∀ e ∈ configEdges cfg, e.source.isSome = true ∧ e.target.isSome = true

def bindsOfAux : List (String × List (String × String)) → List EdgeEntry →
    List (String × List (String × String))
  | acc, [] => acc
  | acc, e :: rest =>
    bindsOfAux (bindsInsert acc (e.target.getD "") (targetInputOf e) (e.source.getD "")) rest

def bindsOf (cfg : DagConfig) : List (String × List (String × String)) :=
  bindsOfAux [] (configEdges cfg)

def refsOk (cfg : DagConfig) : Prop :=
  ∀ tp ∈ bindsOf cfg, isNodeId cfg tp.1 ∧ ∀ ps ∈ tp.2, isNodeId cfg ps.2

instance (cfg : DagConfig) (x : String) : Decidable (isNodeId cfg x) := by
  unfold isNodeId
  exact inferInstance

instance (reg : FunctionRegistry) (cfg : DagConfig) : Decidable (nodesOk reg cfg) := by
  unfold nodesOk
  exact inferInstance

instance (cfg : DagConfig) : Decidable (edgesKeysOk cfg) := by
  unfold edgesKeysOk
  exact inferInstance

instance (cfg : DagConfig) : Decidable (refsOk cfg) := by
  unfold refsOk
  exact inferInstance

/-- Following the wording of the spec (section 4.1 step 3): the target
parameter is the explicit targetInput field if present, else the sourceOutput
field if present, else the literal string "value". -/
def targetInputSpec (e : EdgeEntry) : String :=
  match e.targetInput with
  | some t => t
  | none =>
    match e.sourceOutput with
    | some s => s
    | none => "value"

def bindsSpecAux : List (String × List (String × String)) → List EdgeEntry →
    List (String × List (String × String))
  | acc, [] => acc
  | acc, e :: rest =>
    bindsSpecAux (bindsInsert acc (e.target.getD "") (targetInputSpec e) (e.source.getD "")) rest

def bindsSpec (cfg : DagConfig) : List (String × List (String × String)) :=
  bindsSpecAux [] (configEdges cfg)

/-- A dependency cycle inside a binding map: a nonempty collection of nodes
each of which depends (through an internal binding) on another member of the
collection. -/
def CycleIn (binds : List (String × List (String × String))) (c : List String) : Prop :=
  c ≠ [] ∧ ∀ n ∈ c, ∃ d ∈ c, d ∈ depsOf binds n

instance (binds : List (String × List (String × String))) (c : List String) :
    Decidable (CycleIn binds c) := by
  unfold CycleIn
  exact inferInstance

def poisonFunc (f : Func) : Func :=
  { params := f.params, impl := fun _ => .error "poisoned" }

/-- The same graph with every registered callable replaced by one that fails
immediately: used to express that an outcome involves no callable invocation. -/
def poisonDag (dag : Dag) : Dag :=
  { funcs := dag.funcs.map (fun kf => (kf.1, poisonFunc kf.2)), binds := dag.binds }

/-! Concrete fixtures mirroring the test suite
(`src/tests/test_dag_service.py`). -/

def addFunc : Func :=
  { params := ["a", "b"],
    impl := fun args =>
      match args with
      | [.int x, .int y] => .ok (.int (x + y))
      | _ => .error "unsupported operand types" }

def passFunc : Func :=
  { params := ["p"],
    impl := fun args =>
      match args with
      | [v] => .ok v
      | _ => .error "unsupported operand types" }

def testRegistry : FunctionRegistry :=
  { functions := [("add", addFunc), ("passthrough", passFunc)],
    metadata := [("add", extractMetadata "add" addFunc),
                 ("passthrough", extractMetadata "passthrough" passFunc)] }

def addConfig (nm : String) : DagConfig :=
  { name := some nm,
    nodes := some [{ id := some "add_node", function := some "add", output_name := some "result" }],
    edges := some [],
    params := some [] }

def cycleConfig : DagConfig :=
  { name := some "cyclic",
    nodes := some [{ id := some "A", function := some "passthrough", output_name := none },
                   { id := some "B", function := some "passthrough", output_name := none }],
    edges := some [{ source := some "A", target := some "B", sourceOutput := none, targetInput := some "p" },
                   { source := some "B", target := some "A", sourceOutput := none, targetInput := some "p" }],
    params := none }

def maskedConfig : DagConfig :=
  { name := some "masked",
    nodes := some [{ id := some "A", function := some "passthrough", output_name := none },
                   { id := some "B", function := some "passthrough", output_name := none }],
    edges := some [{ source := some "ghost", target := some "A", sourceOutput := none, targetInput := some "p" },
                   { source := some "B", target := some "A", sourceOutput := none, targetInput := some "p" }],
    params := none }

def chainedConfig : DagConfig :=
  { name := some "chained",
    nodes := some [{ id := some "step1", function := some "add", output_name := none },
                   { id := some "step2", function := some "add", output_name := none }],
    edges := some [{ source := some "step1", target := some "step2",
                     sourceOutput := some "step1", targetInput := some "a" }],
    params := some [] }

def chainedDag : Dag :=
  { funcs := [("step1", addFunc), ("step2", addFunc)],
    binds := [("step2", [("a", "step1")])] }

def emptyNodesConfig : DagConfig :=
  { name := some "empty_dag", nodes := some [], edges := some [], params := none }

def badFunctionConfig : DagConfig :=
  { name := some "invalid_dag",
    nodes := some [{ id := some "node1", function := some "nonexistent", output_name := none }],
    edges := some [],
    params := none }

def danglingTargetConfig : DagConfig :=
  { name := some "dangling",
    nodes := some [{ id := some "A", function := some "passthrough", output_name := none }],
    edges := some [{ source := some "A", target := some "ghost",
                     sourceOutput := none, targetInput := some "p" }],
    params := none }

def regOne : FunctionRegistry :=
  { functions := [("add", addFunc)],
    metadata := [("add", extractMetadata "add" addFunc)] }

def exOk {ε α : Type} : Except ε α → Bool
  | .ok _ => true
  | .error _ => false

/-- Registry states reachable through the public mutation operations, starting
from a freshly initialised registry. -/
inductive Reaches : FunctionRegistry → Prop where
  | empty : Reaches { functions := [], metadata := [] }
  | step_register {r : FunctionRegistry} {n : String} {f : Func} {b : Bool}
      {r' : FunctionRegistry} (h : Reaches r)
      (hr : r.register n f b = .ok r') : Reaches r'
  | step_unregister {r : FunctionRegistry} {n : String} {r' : FunctionRegistry}
      (h : Reaches r) (hr : r.unregister n = .ok r') : Reaches r'

/-! Lemmas about the association-list primitives. -/

lemma dlookup_isSome_iff_mem {α : Type} (d : List (String × α)) (x : String) :
    (dlookup d x).isSome = true ↔ x ∈ d.map Prod.fst := by
  induction d with
  | nil => simp [dlookup]
  | cons kv rest ih =>
    obtain ⟨k, v⟩ := kv
    by_cases h : k = x
    · subst h; simp [dlookup]
    · simp only [dlookup, if_neg h, List.map_cons, List.mem_cons, ih]
      constructor
      · exact Or.inr
      · rintro (rfl | hx)
        · exact absurd rfl h
        · exact hx

lemma dlookup_some_mem {α : Type} {d : List (String × α)} {x : String} {v : α}
    (h : dlookup d x = some v) : (x, v) ∈ d := by
  induction d with
  | nil => simp [dlookup] at h
  | cons kv rest ih =>
    obtain ⟨k, w⟩ := kv
    by_cases hk : k = x
    · subst hk
      simp [dlookup] at h
      subst h
      exact List.mem_cons_self _ _
    · simp only [dlookup, if_neg hk] at h
      exact List.mem_cons_of_mem _ (ih h)

lemma mem_map_fst_dictInsert {α : Type} (d : List (String × α)) (k : String) (v : α)
    (x : String) :
    x ∈ (dictInsert d k v).map Prod.fst ↔ x = k ∨ x ∈ d.map Prod.fst := by
  induction d with
  | nil => simp [dictInsert]
  | cons kv rest ih =>
    obtain ⟨k', w⟩ := kv
    by_cases h : k' = k
    · subst h
      simp [dictInsert, List.mem_cons]
    · simp only [dictInsert, if_neg h, List.map_cons, List.mem_cons, ih]
      tauto

lemma nodup_map_fst_dictInsert {α : Type} (d : List (String × α)) (k : String) (v : α)
    (h : (d.map Prod.fst).Nodup) : ((dictInsert d k v).map Prod.fst).Nodup := by
  induction d with
  | nil => simp [dictInsert]
  | cons kv rest ih =>
    obtain ⟨k', w⟩ := kv
    simp only [List.map_cons, List.nodup_cons] at h
    obtain ⟨hk', hrest⟩ := h
    by_cases he : k' = k
    · subst he
      simp [dictInsert, List.nodup_cons]
      refine ⟨?_, hrest⟩
      intro x hx
      exact hk' (List.mem_map_of_mem Prod.fst hx)
    · simp only [dictInsert, if_neg he, List.map_cons, List.nodup_cons]
      refine ⟨?_, ih hrest⟩
      rw [mem_map_fst_dictInsert]
      rintro (rfl | hx)
      · exact he rfl
      · exact hk' hx

lemma dlookup_isSome_congr {α β : Type} {d1 : List (String × α)} {d2 : List (String × β)}
    (h : d1.map Prod.fst = d2.map Prod.fst) (x : String) :
    (dlookup d1 x).isSome = (dlookup d2 x).isSome := by
  induction d1 generalizing d2 with
  | nil =>
    cases d2 with
    | nil => rfl
    | cons kv rest => simp at h
  | cons kv rest ih =>
    cases d2 with
    | nil => simp at h
    | cons kv2 rest2 =>
      obtain ⟨k, v⟩ := kv
      obtain ⟨k2, v2⟩ := kv2
      simp only [List.map_cons, List.cons.injEq] at h
      obtain ⟨hk, hrest⟩ := h
      subst hk
      by_cases hx : k = x
      · simp [dlookup, hx]
      · simp [dlookup, hx, ih hrest]

lemma map_fst_dictInsert_congr {α β : Type} {d1 : List (String × α)} {d2 : List (String × β)}
    (h : d1.map Prod.fst = d2.map Prod.fst) (k : String) (v : α) (w : β) :
    (dictInsert d1 k v).map Prod.fst = (dictInsert d2 k w).map Prod.fst := by
  induction d1 generalizing d2 with
  | nil =>
    cases d2 with
    | nil => rfl
    | cons kv rest => simp at h
  | cons kv rest ih =>
    cases d2 with
    | nil => simp at h
    | cons kv2 rest2 =>
      obtain ⟨k1, v1⟩ := kv
      obtain ⟨k2, v2⟩ := kv2
      simp only [List.map_cons, List.cons.injEq] at h
      obtain ⟨hk, hrest⟩ := h
      subst hk
      by_cases he : k1 = k
      · simp [dictInsert, he, hrest]
      · simp only [dictInsert, if_neg he, List.map_cons, List.cons.injEq]
        exact ⟨by trivial, ih hrest⟩

lemma map_fst_dictErase_congr {α β : Type} {d1 : List (String × α)} {d2 : List (String × β)}
    (h : d1.map Prod.fst = d2.map Prod.fst) (k : String) :
    (dictErase d1 k).map Prod.fst = (dictErase d2 k).map Prod.fst := by
  induction d1 generalizing d2 with
  | nil =>
    cases d2 with
    | nil => rfl
    | cons kv rest => simp at h
  | cons kv rest ih =>
    cases d2 with
    | nil => simp at h
    | cons kv2 rest2 =>
      obtain ⟨k1, v1⟩ := kv
      obtain ⟨k2, v2⟩ := kv2
      simp only [List.map_cons, List.cons.injEq] at h
      obtain ⟨hk, hrest⟩ := h
      subst hk
      by_cases he : k1 = k
      · simp [dictErase, he, hrest]
      · simp only [dictErase, if_neg he, List.map_cons, List.cons.injEq]
        exact ⟨by trivial, ih hrest⟩

/-! Lemmas about the builder. -/

lemma exbind_ok {ε α β : Type} (a : α) (f : α → Except ε β) :
    (Except.ok a >>= f : Except ε β) = f a := rfl

lemma exbind_err {ε α β : Type} (e : ε) (f : α → Except ε β) :
    (Except.error e >>= f : Except ε β) = .error e := rfl

lemma nodeOkB_dest {reg : FunctionRegistry} {nd : NodeEntry} (h : nodeOkB reg nd = true) :
    ∃ nid fn, nd.id = some nid ∧ nd.function = some fn ∧
      (dlookup reg.functions fn).isSome = true := by
  unfold nodeOkB at h
  cases hid : nd.id with
  | none => rw [hid] at h; simp at h
  | some nid =>
    cases hfn : nd.function with
    | none => rw [hid, hfn] at h; simp at h
    | some fn =>
      rw [hid, hfn] at h
      simp only [Option.isSome_some, Bool.true_and] at h
      exact ⟨nid, fn, rfl, rfl, h⟩

lemma buildFuncsAux_ok_of (reg : FunctionRegistry) (nodes : List NodeEntry) :
    ∀ acc : List (String × Func),
    (∀ nd ∈ nodes, nodeOkB reg nd = true) →
    ∃ funcs, buildFuncsAux reg acc nodes = .ok funcs ∧
      (∀ x, (dlookup funcs x).isSome = true ↔
        ((dlookup acc x).isSome = true ∨ ∃ nd ∈ nodes, nd.id = some x)) ∧
      ((acc.map Prod.fst).Nodup → (funcs.map Prod.fst).Nodup) := by
  induction nodes with
  | nil =>
    intro acc _
    exact ⟨acc, rfl, by simp, id⟩
  | cons nd rest ih =>
    intro acc h
    obtain ⟨nid, fn, hid, hfn, hlook⟩ := nodeOkB_dest (h nd (List.mem_cons_self _ _))
    obtain ⟨f, hf⟩ := Option.isSome_iff_exists.mp hlook
    obtain ⟨funcs, hok, hkeys, hnodup⟩ :=
      ih (dictInsert acc nid f) (fun nd' h' => h nd' (List.mem_cons_of_mem _ h'))
    refine ⟨funcs, ?_, ?_, ?_⟩
    · show (do
        let node_id ← keyGet nd.id "id"
        let func_name ← keyGet nd.function "function"
        match reg.get_function func_name with
        | .error _ =>
          Except.error (.valueError ("Function \x27" ++ func_name ++
            "\x27 not found in registry for node \x27" ++ node_id ++ "\x27"))
        | .ok func => buildFuncsAux reg (dictInsert acc node_id func) rest) = .ok funcs
      rw [hid, hfn]
      simp only [keyGet, exbind_ok]
      simp only [FunctionRegistry.get_function, hf]
      exact hok
    · intro x
      rw [hkeys x]
      constructor
      · rintro (hx | hx)
        · rw [dlookup_isSome_iff_mem, mem_map_fst_dictInsert] at hx
          rcases hx with rfl | hx
          · exact Or.inr ⟨nd, List.mem_cons_self _ _, hid⟩
          · exact Or.inl (by rwa [dlookup_isSome_iff_mem])
        · obtain ⟨nd', hnd', hx⟩ := hx
          exact Or.inr ⟨nd', List.mem_cons_of_mem _ hnd', hx⟩
      · rintro (hx | ⟨nd', hnd', hx⟩)
        · left
          rw [dlookup_isSome_iff_mem, mem_map_fst_dictInsert]
          right
          rwa [dlookup_isSome_iff_mem] at hx
        · rcases List.mem_cons.mp hnd' with rfl | hnd'
          · left
            rw [dlookup_isSome_iff_mem, mem_map_fst_dictInsert]
            left
            rw [hid] at hx
            exact ((Option.some.injEq nid x).mp hx).symm
          · exact Or.inr ⟨nd', hnd', hx⟩
    · intro hacc
      exact hnodup (nodup_map_fst_dictInsert _ _ _ hacc)

lemma buildFuncsAux_cons (reg : FunctionRegistry) (acc : List (String × Func))
    (nd : NodeEntry) (rest : List NodeEntry) :
    buildFuncsAux reg acc (nd :: rest) = (do
      let node_id ← keyGet nd.id "id"
      let func_name ← keyGet nd.function "function"
      match reg.get_function func_name with
      | .error _ =>
        Except.error (.valueError ("Function \x27" ++ func_name ++
          "\x27 not found in registry for node \x27" ++ node_id ++ "\x27"))
      | .ok func => buildFuncsAux reg (dictInsert acc node_id func) rest) := rfl

lemma buildFuncsAux_err_of (reg : FunctionRegistry) (nodes : List NodeEntry) :
    ∀ acc : List (String × Func),
    (∀ nd ∈ nodes, nd.id.isSome = true ∧ nd.function.isSome = true) →
    (∃ nd ∈ nodes, funcUnresolvedB reg nd = true) →
    ∃ nid fn, (∃ nd ∈ nodes, nd.id = some nid ∧ nd.function = some fn) ∧
      dlookup reg.functions fn = none ∧
      buildFuncsAux reg acc nodes = .error (.valueError
        ("Function \x27" ++ fn ++ "\x27 not found in registry for node \x27" ++ nid ++ "\x27")) := by
  induction nodes with
  | nil =>
    intro acc _ hbad
    simp at hbad
  | cons nd rest ih =>
    intro acc hkeys hbad
    obtain ⟨hids, hfns⟩ := hkeys nd (List.mem_cons_self _ _)
    obtain ⟨nid, hid⟩ := Option.isSome_iff_exists.mp hids
    obtain ⟨fn, hfn⟩ := Option.isSome_iff_exists.mp hfns
    cases hlook : dlookup reg.functions fn with
    | none =>
      refine ⟨nid, fn, ⟨nd, List.mem_cons_self _ _, hid, hfn⟩, hlook, ?_⟩
      rw [buildFuncsAux_cons, hid, hfn]
      simp only [keyGet, exbind_ok]
      simp only [FunctionRegistry.get_function, hlook]
    | some f =>
      have hbad' : ∃ nd' ∈ rest, funcUnresolvedB reg nd' = true := by
        rcases hbad with ⟨nd', hnd', hb⟩
        rcases List.mem_cons.mp hnd' with rfl | h'
        · exfalso
          unfold funcUnresolvedB at hb
          rw [hfn] at hb
          simp [hlook] at hb
        · exact ⟨nd', h', hb⟩
      obtain ⟨nid', fn', hmem, hl', hrun⟩ :=
        ih (dictInsert acc nid f) (fun nd' h' => hkeys nd' (List.mem_cons_of_mem _ h')) hbad'
      refine ⟨nid', fn', ?_, hl', ?_⟩
      · obtain ⟨nd', h', hx⟩ := hmem
        exact ⟨nd', List.mem_cons_of_mem _ h', hx⟩
      · rw [buildFuncsAux_cons, hid, hfn]
        simp only [keyGet, exbind_ok]
        simp only [FunctionRegistry.get_function, hlook]
        exact hrun

lemma buildBindsAux_cons (acc : List (String × List (String × String)))
    (e : EdgeEntry) (rest : List EdgeEntry) :
    buildBindsAux acc (e :: rest) = (do
      let source ← keyGet e.source "source"
      let target ← keyGet e.target "target"
      buildBindsAux (bindsInsert acc target (targetInputOf e) source) rest) := rfl

lemma buildBindsAux_ok_of (edges : List EdgeEntry) :
    ∀ acc, (∀ e ∈ edges, e.source.isSome = true ∧ e.target.isSome = true) →
    buildBindsAux acc edges = .ok (bindsOfAux acc edges) := by
  induction edges with
  | nil => intro acc _; rfl
  | cons e rest ih =>
    intro acc h
    obtain ⟨hs, ht⟩ := h e (List.mem_cons_self _ _)
    obtain ⟨s, hs'⟩ := Option.isSome_iff_exists.mp hs
    obtain ⟨t, ht'⟩ := Option.isSome_iff_exists.mp ht
    rw [buildBindsAux_cons, hs', ht']
    simp only [keyGet, exbind_ok]
    simp only [bindsOfAux, hs', ht', Option.getD_some]
    exact ih _ (fun e' h' => h e' (List.mem_cons_of_mem _ h'))

lemma buildBindsAux_ok_inv (edges : List EdgeEntry) :
    ∀ acc b, buildBindsAux acc edges = .ok b → b = bindsOfAux acc edges := by
  induction edges with
  | nil =>
    intro acc b h
    injection h with h
    exact h.symm
  | cons e rest ih =>
    intro acc b h
    rw [buildBindsAux_cons] at h
    cases hs : e.source with
    | none => rw [hs] at h; simp [keyGet, exbind_err] at h
    | some s =>
      cases ht : e.target with
      | none => rw [hs, ht] at h; simp [keyGet, exbind_ok, exbind_err] at h
      | some t =>
        rw [hs, ht] at h
        simp only [keyGet, exbind_ok] at h
        rw [ih _ _ h]
        simp only [bindsOfAux, hs, ht, Option.getD_some]

lemma targetInput_eq (e : EdgeEntry) : targetInputOf e = targetInputSpec e := by
  unfold targetInputOf targetInputSpec
  cases e.targetInput <;> cases e.sourceOutput <;> rfl

lemma bindsOfAux_eq_spec (edges : List EdgeEntry) :
    ∀ acc, bindsOfAux acc edges = bindsSpecAux acc edges := by
  induction edges with
  | nil => intro acc; rfl
  | cons e rest ih =>
    intro acc
    simp only [bindsOfAux, bindsSpecAux, targetInput_eq]
    exact ih _

/-! Lemmas about the modelled DAG constructor checks. -/

lemma checkPBs_ok_of (ids : List String) (pbs : List (String × String))
    (h : ∀ ps ∈ pbs, ps.2 ∈ ids) : checkPBs ids pbs = .ok () := by
  induction pbs with
  | nil => rfl
  | cons ps rest ih =>
    obtain ⟨p, s⟩ := ps
    have hs : s ∈ ids := h (p, s) (List.mem_cons_self _ _)
    simp only [checkPBs, if_pos hs]
    exact ih (fun ps' h' => h ps' (List.mem_cons_of_mem _ h'))

lemma checkPBs_ok_mem (ids : List String) (pbs : List (String × String))
    (h : checkPBs ids pbs = .ok ()) : ∀ ps ∈ pbs, ps.2 ∈ ids := by
  induction pbs with
  | nil => intro ps h'; simp at h'
  | cons q rest ih =>
    obtain ⟨p, s⟩ := q
    by_cases hs : s ∈ ids
    · simp only [checkPBs, if_pos hs] at h
      intro ps h'
      rcases List.mem_cons.mp h' with rfl | h'
      · exact hs
      · exact ih h ps h'
    · simp [checkPBs, if_neg hs] at h

lemma checkPBs_err_shape (ids : List String) (pbs : List (String × String)) (m : String)
    (h : checkPBs ids pbs = .error m) :
    ∃ b, m = "Unknown node reference: " ++ b ∧ b ∉ ids := by
  induction pbs with
  | nil => simp [checkPBs] at h
  | cons q rest ih =>
    obtain ⟨p, s⟩ := q
    by_cases hs : s ∈ ids
    · simp only [checkPBs, if_pos hs] at h
      exact ih h
    · simp only [checkPBs, if_neg hs] at h
      injection h with h
      exact ⟨s, h.symm, hs⟩

lemma checkPBs_err_of (ids : List String) (pbs : List (String × String))
    (h : ∃ ps ∈ pbs, ps.2 ∉ ids) :
    ∃ m, checkPBs ids pbs = .error m := by
  induction pbs with
  | nil => simp at h
  | cons q rest ih =>
    obtain ⟨p, s⟩ := q
    by_cases hs : s ∈ ids
    · simp only [checkPBs, if_pos hs]
      apply ih
      rcases h with ⟨ps', hmem, hbad⟩
      rcases List.mem_cons.mp hmem with rfl | h'
      · exact absurd hs hbad
      · exact ⟨ps', h', hbad⟩
    · exact ⟨"Unknown node reference: " ++ s, by simp [checkPBs, if_neg hs]⟩

lemma checkBinds_ok_of (ids : List String) (binds : List (String × List (String × String)))
    (h : ∀ tp ∈ binds, tp.1 ∈ ids ∧ ∀ ps ∈ tp.2, ps.2 ∈ ids) :
    checkBinds ids binds = .ok () := by
  induction binds with
  | nil => rfl
  | cons tp rest ih =>
    obtain ⟨t, pbs⟩ := tp
    obtain ⟨ht, hps⟩ := h (t, pbs) (List.mem_cons_self _ _)
    simp only [checkBinds, if_pos ht, checkPBs_ok_of ids pbs hps]
    exact ih (fun tp' h' => h tp' (List.mem_cons_of_mem _ h'))

lemma checkBinds_ok_mem (ids : List String) (binds : List (String × List (String × String)))
    (h : checkBinds ids binds = .ok ()) :
    ∀ tp ∈ binds, tp.1 ∈ ids ∧ ∀ ps ∈ tp.2, ps.2 ∈ ids := by
  induction binds with
  | nil => intro tp h'; simp at h'
  | cons q rest ih =>
    obtain ⟨t, pbs⟩ := q
    by_cases ht : t ∈ ids
    · cases hcp : checkPBs ids pbs with
      | ok u =>
        cases u
        simp only [checkBinds, if_pos ht, hcp] at h
        intro tp h'
        rcases List.mem_cons.mp h' with rfl | h'
        · exact ⟨ht, checkPBs_ok_mem ids pbs hcp⟩
        · exact ih h tp h'
      | error m =>
        simp [checkBinds, if_pos ht, hcp] at h
    · simp [checkBinds, if_neg ht] at h

lemma checkBinds_err_of (ids : List String) (binds : List (String × List (String × String)))
    (h : ∃ tp ∈ binds, tp.1 ∉ ids ∨ ∃ ps ∈ tp.2, ps.2 ∉ ids) :
    ∃ b, checkBinds ids binds = .error ("Unknown node reference: " ++ b) ∧ b ∉ ids := by
  induction binds with
  | nil => simp at h
  | cons q rest ih =>
    obtain ⟨t, pbs⟩ := q
    by_cases ht : t ∈ ids
    · cases hcp : checkPBs ids pbs with
      | ok u =>
        cases u
        simp only [checkBinds, if_pos ht, hcp]
        apply ih
        rcases h with ⟨tp', hmem, hbad⟩
        rcases List.mem_cons.mp hmem with rfl | h'
        · rcases hbad with hbad | ⟨ps, hps, hbad⟩
          · exact absurd ht hbad
          · exact absurd (checkPBs_ok_mem ids pbs hcp ps hps) hbad
        · exact ⟨tp', h', hbad⟩
      | error m =>
        obtain ⟨b, hm, hb⟩ := checkPBs_err_shape ids pbs m hcp
        refine ⟨b, ?_, hb⟩
        simp only [checkBinds, if_pos ht, hcp, hm]
    · exact ⟨t, by simp [checkBinds, if_neg ht], ht⟩

lemma mkDAG_ok_of (funcs : List (String × Func)) (binds : List (String × List (String × String)))
    (h : checkBinds (funcs.map Prod.fst) binds = .ok ()) :
    mkDAG funcs binds = .ok { funcs := funcs, binds := binds } := by
  simp [mkDAG, h]

lemma mkDAG_ok_inv {funcs : List (String × Func)}
    {binds : List (String × List (String × String))} {dag : Dag}
    (h : mkDAG funcs binds = .ok dag) :
    dag = { funcs := funcs, binds := binds } ∧
      checkBinds (funcs.map Prod.fst) binds = .ok () := by
  unfold mkDAG at h
  cases hcb : checkBinds (funcs.map Prod.fst) binds with
  | ok u =>
    cases u
    rw [hcb] at h
    injection h with h
    exact ⟨h.symm, rfl⟩
  | error m =>
    rw [hcb] at h
    simp at h

/-! Composition lemmas for the whole builder. -/

lemma json_to_dag_eq (reg : FunctionRegistry) (cfg : DagConfig) :
    json_to_dag reg cfg =
      (if (configNodes cfg).isEmpty then
        Except.error (.valueError "DAG must have at least one node")
       else do
         let funcs ← buildFuncsAux reg [] (configNodes cfg)
         let binds ← buildBindsAux [] (configEdges cfg)
         match mkDAG funcs binds with
         | .ok d => .ok d
         | .error m => .error (.valueError ("Error creating DAG: " ++ m))) := rfl

lemma json_to_dag_ok_of (reg : FunctionRegistry) (cfg : DagConfig)
    (hn : nodesOk reg cfg) (he : edgesKeysOk cfg) (hr : refsOk cfg) :
    ∃ funcs, json_to_dag reg cfg = .ok { funcs := funcs, binds := bindsOf cfg } ∧
      (∀ x, (dlookup funcs x).isSome = true ↔ isNodeId cfg x) ∧
      (funcs.map Prod.fst).Nodup := by
  obtain ⟨hne, hok⟩ := hn
  obtain ⟨funcs, hbf, hkeys, hnodup⟩ := buildFuncsAux_ok_of reg (configNodes cfg) [] hok
  have hkeys' : ∀ x, (dlookup funcs x).isSome = true ↔ isNodeId cfg x := by
    intro x
    rw [hkeys x]
    simp [dlookup, isNodeId]
  have hnd : (funcs.map Prod.fst).Nodup := hnodup (by simp)
  have hcb : checkBinds (funcs.map Prod.fst) (bindsOf cfg) = .ok () := by
    apply checkBinds_ok_of
    intro tp htp
    obtain ⟨h1, h2⟩ := hr tp htp
    constructor
    · rw [← dlookup_isSome_iff_mem, hkeys']
      exact h1
    · intro ps hps
      rw [← dlookup_isSome_iff_mem, hkeys']
      exact h2 ps hps
  have hbb : buildBindsAux [] (configEdges cfg) = .ok (bindsOf cfg) :=
    buildBindsAux_ok_of (configEdges cfg) [] he
  refine ⟨funcs, ?_, hkeys', hnd⟩
  rw [json_to_dag_eq, hne]
  simp only [Bool.false_eq_true, if_false]
  rw [hbf, exbind_ok, hbb, exbind_ok, mkDAG_ok_of funcs (bindsOf cfg) hcb]

lemma json_to_dag_err_dangling (reg : FunctionRegistry) (cfg : DagConfig)
    (hn : nodesOk reg cfg) (he : edgesKeysOk cfg)
    (hd : ∃ tp ∈ bindsOf cfg, ¬ isNodeId cfg tp.1 ∨ ∃ ps ∈ tp.2, ¬ isNodeId cfg ps.2) :
    ∃ b, ¬ isNodeId cfg b ∧
      json_to_dag reg cfg =
        .error (.valueError ("Error creating DAG: Unknown node reference: " ++ b)) := by
  obtain ⟨hne, hok⟩ := hn
  obtain ⟨funcs, hbf, hkeys, _⟩ := buildFuncsAux_ok_of reg (configNodes cfg) [] hok
  have hkeys' : ∀ x, x ∈ funcs.map Prod.fst ↔ isNodeId cfg x := by
    intro x
    rw [← dlookup_isSome_iff_mem, hkeys x]
    simp [dlookup, isNodeId]
  have hd' : ∃ tp ∈ bindsOf cfg,
      tp.1 ∉ funcs.map Prod.fst ∨ ∃ ps ∈ tp.2, ps.2 ∉ funcs.map Prod.fst := by
    obtain ⟨tp, htp, hbad⟩ := hd
    refine ⟨tp, htp, ?_⟩
    rcases hbad with h1 | ⟨ps, hps, h2⟩
    · left
      rw [hkeys']
      exact h1
    · right
      exact ⟨ps, hps, by rw [hkeys']; exact h2⟩
  obtain ⟨b, hcb, hb⟩ := checkBinds_err_of (funcs.map Prod.fst) (bindsOf cfg) hd'
  have hbn : ¬ isNodeId cfg b := fun h => hb ((hkeys' b).mpr h)
  have hbb : buildBindsAux [] (configEdges cfg) = .ok (bindsOf cfg) :=
    buildBindsAux_ok_of (configEdges cfg) [] he
  refine ⟨b, hbn, ?_⟩
  rw [json_to_dag_eq, hne]
  simp only [Bool.false_eq_true, if_false]
  rw [hbf, exbind_ok, hbb, exbind_ok]
  unfold mkDAG
  rw [hcb]
  show (Except.error (PyErr.valueError
      ("Error creating DAG: " ++ ("Unknown node reference: " ++ b))) : Except PyErr Dag) =
    Except.error (PyErr.valueError ("Error creating DAG: Unknown node reference: " ++ b))
  rw [← String.append_assoc]
  rfl

/-! Lemmas about the modelled executor: the topological ordering aborts on a
dependency cycle before any callable is reached. -/

lemma isReady_iff (binds : List (String × List (String × String))) (done : List String)
    (n : String) : isReady binds done n = true ↔ ∀ d ∈ depsOf binds n, d ∈ done := by
  unfold isReady
  rw [List.all_eq_true]
  simp

lemma pickReady_some {binds : List (String × List (String × String))}
    {done : List String} {l : List String} {m : String}
    (h : pickReady binds done l = some m) : m ∈ l ∧ isReady binds done m = true := by
  induction l with
  | nil => simp [pickReady] at h
  | cons n rest ih =>
    by_cases hr : isReady binds done n = true
    · simp only [pickReady, if_pos hr] at h
      injection h with h
      subst h
      exact ⟨List.mem_cons_self _ _, hr⟩
    · simp only [pickReady, if_neg hr] at h
      obtain ⟨h1, h2⟩ := ih h
      exact ⟨List.mem_cons_of_mem _ h1, h2⟩

lemma mem_removeFirst_of_ne {l : List String} {x y : String} (hx : x ∈ l) (hne : x ≠ y) :
    x ∈ removeFirst l y := by
  induction l with
  | nil => simp at hx
  | cons a rest ih =>
    by_cases ha : a = y
    · subst ha
      simp only [removeFirst, if_pos rfl]
      rcases List.mem_cons.mp hx with rfl | hx
      · exact absurd rfl hne
      · exact hx
    · simp only [removeFirst, if_neg ha]
      rcases List.mem_cons.mp hx with rfl | hx
      · exact List.mem_cons_self _ _
      · exact List.mem_cons_of_mem _ (ih hx)

lemma mem_of_mem_removeFirst {l : List String} {x y : String}
    (h : x ∈ removeFirst l y) : x ∈ l := by
  induction l with
  | nil => simp [removeFirst] at h
  | cons a rest ih =>
    by_cases ha : a = y
    · subst ha
      simp only [removeFirst, if_pos rfl] at h
      exact List.mem_cons_of_mem _ h
    · simp only [removeFirst, if_neg ha] at h
      rcases List.mem_cons.mp h with rfl | h
      · exact List.mem_cons_self _ _
      · exact List.mem_cons_of_mem _ (ih h)

lemma not_mem_removeFirst_self {l : List String} {y : String} (hnd : l.Nodup) :
    y ∉ removeFirst l y := by
  induction l with
  | nil => simp [removeFirst]
  | cons a rest ih =>
    simp only [List.nodup_cons] at hnd
    obtain ⟨ha, hrest⟩ := hnd
    by_cases hay : a = y
    · subst hay
      simp only [removeFirst, if_pos rfl]
      exact ha
    · simp only [removeFirst, if_neg hay]
      intro hmem
      rcases List.mem_cons.mp hmem with rfl | hmem
      · exact hay rfl
      · exact ih hrest hmem

lemma nodup_removeFirst {l : List String} {y : String} (h : l.Nodup) :
    (removeFirst l y).Nodup := by
  induction l with
  | nil => simp [removeFirst]
  | cons a rest ih =>
    simp only [List.nodup_cons] at h
    obtain ⟨ha, hrest⟩ := h
    by_cases hay : a = y
    · subst hay
      simp only [removeFirst, if_pos rfl]
      exact hrest
    · simp only [removeFirst, if_neg hay, List.nodup_cons]
      exact ⟨fun hm => ha (mem_of_mem_removeFirst hm), ih hrest⟩

lemma topoAux_cycle_err (binds : List (String × List (String × String)))
    (c : List String) (hc1 : c ≠ []) (hc2 : ∀ n ∈ c, ∃ d ∈ c, d ∈ depsOf binds n) :
    ∀ (fuel : Nat) (remaining done : List String),
    (∀ n ∈ c, n ∈ remaining) → remaining.Nodup → (∀ n ∈ remaining, n ∉ done) →
    ∃ m, topoAux binds fuel remaining done = .error (.cycle m) := by
  intro fuel
  induction fuel with
  | zero =>
    intro remaining done hsub _ _
    cases hr : remaining with
    | nil =>
      obtain ⟨n, hn⟩ := List.exists_mem_of_ne_nil c hc1
      rw [hr] at hsub
      exact absurd (hsub n hn) (List.not_mem_nil n)
    | cons a t =>
      subst hr
      exact ⟨a, rfl⟩
  | succ fuel ih =>
    intro remaining done hsub hnd hdis
    cases hr : remaining with
    | nil =>
      obtain ⟨n, hn⟩ := List.exists_mem_of_ne_nil c hc1
      rw [hr] at hsub
      exact absurd (hsub n hn) (List.not_mem_nil n)
    | cons a t =>
      subst hr
      cases hp : pickReady binds done (a :: t) with
      | none => exact ⟨a, by simp [topoAux, hp]⟩
      | some m =>
        obtain ⟨hm_mem, hm_rdy⟩ := pickReady_some hp
        have hm_nc : m ∉ c := by
          intro hmc
          obtain ⟨d, hdc, hdep⟩ := hc2 m hmc
          have hd_done : d ∈ done := (isReady_iff _ _ _).mp hm_rdy d hdep
          exact hdis d (hsub d hdc) hd_done
        have h1 : ∀ n ∈ c, n ∈ removeFirst (a :: t) m := by
          intro n hn
          exact mem_removeFirst_of_ne (hsub n hn) (fun heq => hm_nc (heq ▸ hn))
        have h2 : (removeFirst (a :: t) m).Nodup := nodup_removeFirst hnd
        have h3 : ∀ n ∈ removeFirst (a :: t) m, n ∉ m :: done := by
          intro n hn hmem
          rcases List.mem_cons.mp hmem with rfl | hmem
          · exact not_mem_removeFirst_self hnd hn
          · exact hdis n (mem_of_mem_removeFirst hn) hmem
        obtain ⟨m', hm'⟩ := ih (removeFirst (a :: t) m) (m :: done) h1 h2 h3
        refine ⟨m', ?_⟩
        simp only [topoAux, hp]
        exact hm'

lemma cycle_subset_ids {binds : List (String × List (String × String))}
    {ids : List String} {c : List String} (hok : checkBinds ids binds = .ok ())
    (hc2 : ∀ n ∈ c, ∃ d ∈ c, d ∈ depsOf binds n) : ∀ n ∈ c, n ∈ ids := by
  intro n hn
  obtain ⟨d, _, hdep⟩ := hc2 n hn
  unfold depsOf at hdep
  cases hl : dlookup binds n with
  | none => rw [hl] at hdep; simp at hdep
  | some pbs =>
    exact (checkBinds_ok_mem ids binds hok (n, pbs) (dlookup_some_mem hl)).1

lemma topoSort_cycle_err (dag : Dag) (c : List String)
    (hc : CycleIn dag.binds c) (hsub : ∀ n ∈ c, n ∈ dag.funcs.map Prod.fst)
    (hnd : (dag.funcs.map Prod.fst).Nodup) :
    ∃ m, topoSort dag = .error (.cycle m) := by
  obtain ⟨hc1, hc2⟩ := hc
  unfold topoSort
  exact topoAux_cycle_err dag.binds c hc1 hc2 (dag.funcs.map Prod.fst).length
    (dag.funcs.map Prod.fst) [] hsub hnd (fun n _ => List.not_mem_nil n)

lemma dagCall_err_of_topo {dag : Dag} {m : String}
    (h : topoSort dag = .error (.cycle m)) (inputs : List (String × Value)) :
    dagCall dag inputs = .error (.cycle m) := by
  unfold dagCall
  rw [h]
  rfl

lemma poisonDag_binds (dag : Dag) : (poisonDag dag).binds = dag.binds := rfl

lemma poisonDag_ids (dag : Dag) :
    (poisonDag dag).funcs.map Prod.fst = dag.funcs.map Prod.fst := by
  unfold poisonDag
  simp

lemma topoSort_poison (dag : Dag) : topoSort (poisonDag dag) = topoSort dag := by
  unfold topoSort
  rw [poisonDag_ids, poisonDag_binds]

/-! Lemmas about the function registry. -/

lemma register_ok_inv {r : FunctionRegistry} {n : String} {f : Func} {b : Bool}
    {r' : FunctionRegistry} (h : r.register n f b = .ok r') :
    r' = { functions := dictInsert r.functions n f,
           metadata := dictInsert r.metadata n (extractMetadata n f) } := by
  unfold FunctionRegistry.register at h
  by_cases hc : ((dlookup r.functions n).isSome && !b) = true
  · rw [if_pos hc] at h
    simp at h
  · rw [if_neg hc] at h
    injection h with h
    exact h.symm

lemma unregister_ok_inv {r : FunctionRegistry} {n : String} {r' : FunctionRegistry}
    (h : r.unregister n = .ok r') :
    r' = { functions := dictErase r.functions n,
           metadata := dictErase r.metadata n } := by
  unfold FunctionRegistry.unregister at h
  by_cases hc : (dlookup r.functions n).isNone = true
  · rw [if_pos hc] at h
    simp at h
  · rw [if_neg hc] at h
    injection h with h
    exact h.symm

lemma reaches_keys_eq {r : FunctionRegistry} (h : Reaches r) :
    r.functions.map Prod.fst = r.metadata.map Prod.fst := by
  induction h with
  | empty => rfl
  | step_register h hr ih =>
    rw [register_ok_inv hr]
    exact map_fst_dictInsert_congr ih _ _ _
  | step_unregister h hr ih =>
    rw [unregister_ok_inv hr]
    exact map_fst_dictErase_congr ih _

lemma exOk_get_function (r : FunctionRegistry) (n : String) :
    exOk (r.get_function n) = (dlookup r.functions n).isSome := by
  unfold FunctionRegistry.get_function exOk
  cases dlookup r.functions n <;> rfl

lemma exOk_get_metadata (r : FunctionRegistry) (n : String) :
    exOk (r.get_metadata n) = (dlookup r.metadata n).isSome := by
  unfold FunctionRegistry.get_metadata exOk
  cases dlookup r.metadata n <;> rfl

/-! The claims. -/

/-- C1: a description whose internal bindings contain a dependency cycle still
builds successfully (json_to_dag performs no cycle check), and the cycle is
reported only when the DAG is called, as a cycle error raised before any
registered callable is invoked: the outcome is identical when every callable is
replaced by an immediately failing one. -/
theorem C1_cycles_deferred_to_execution (reg : FunctionRegistry) (cfg : DagConfig)
    (c : List String) (hn : nodesOk reg cfg) (he : edgesKeysOk cfg) (hr : refsOk cfg)
    (hc : CycleIn (bindsOf cfg) c) :
    ∃ dag, json_to_dag reg cfg = .ok dag ∧ dag.binds = bindsOf cfg ∧
      ∀ inputs, ∃ m,
        dagCall dag inputs = .error (.cycle m) ∧
        dagCall (poisonDag dag) inputs = .error (.cycle m) ∧
        execute_dag dag inputs = .error (.runtimeError
          ("DAG execution failed: Cycle detected involving node " ++ m)) := by
  obtain ⟨funcs, hok, hkeys, hnd⟩ := json_to_dag_ok_of reg cfg hn he hr
  refine ⟨_, hok, rfl, ?_⟩
  intro inputs
  have hcb : checkBinds (funcs.map Prod.fst) (bindsOf cfg) = .ok () := by
    apply checkBinds_ok_of
    intro tp htp
    obtain ⟨h1, h2⟩ := hr tp htp
    exact ⟨by rw [← dlookup_isSome_iff_mem, hkeys]; exact h1,
           fun ps hps => by rw [← dlookup_isSome_iff_mem, hkeys]; exact h2 ps hps⟩
  have hsub : ∀ n ∈ c, n ∈ funcs.map Prod.fst := cycle_subset_ids hcb hc.2
  obtain ⟨m, hm⟩ :=
    topoSort_cycle_err { funcs := funcs, binds := bindsOf cfg } c hc hsub hnd
  refine ⟨m, dagCall_err_of_topo hm inputs, ?_, ?_⟩
  · exact dagCall_err_of_topo
      (by rw [topoSort_poison]; exact hm) inputs
  · unfold execute_dag
    rw [dagCall_err_of_topo hm inputs]
    show (Except.error (PyErr.runtimeError
        ("DAG execution failed: " ++ ("Cycle detected involving node " ++ m))) :
        Except PyErr Value) =
      Except.error (PyErr.runtimeError
        ("DAG execution failed: Cycle detected involving node " ++ m))
    rw [← String.append_assoc]
    rfl

/-- C1 witness: the two-node description A ↔ B with mutual bindings builds, and
calling it fails with a cycle error, with callables never invoked. -/
theorem C1_witness :
    (nodesOk testRegistry cycleConfig ∧ edgesKeysOk cycleConfig ∧ refsOk cycleConfig ∧
      CycleIn (bindsOf cycleConfig) ["A", "B"]) ∧
    (∃ dag, json_to_dag testRegistry cycleConfig = .ok dag ∧
      dag.binds = bindsOf cycleConfig ∧
      ∀ inputs, ∃ m,
        dagCall dag inputs = .error (.cycle m) ∧
        dagCall (poisonDag dag) inputs = .error (.cycle m) ∧
        execute_dag dag inputs = .error (.runtimeError
          ("DAG execution failed: Cycle detected involving node " ++ m))) :=
  ⟨⟨by decide, by decide, by decide, by decide⟩,
    C1_cycles_deferred_to_execution testRegistry cycleConfig ["A", "B"]
      (by decide) (by decide) (by decide) (by decide)⟩

/-- C2 counterexample: maskedConfig contains an edge whose source node id
"ghost" is not among its nodes, yet json_to_dag succeeds, because a later edge
with the same target and target input overwrote the dangling binding. -/
theorem C2_counterexample :
    (∃ e ∈ configEdges maskedConfig, ¬ isNodeId maskedConfig (e.source.getD "")) ∧
    exOk (json_to_dag testRegistry maskedConfig) = true := by
  exact ⟨by decide, rfl⟩

/-- C2 amended: for a description whose nodes all resolve and whose edges all
carry source and target keys, build fails with the structural error
"Error creating DAG: Unknown node reference: ..." naming a non-node id exactly
when the final binding map (after later edges overwrite earlier ones sharing
target and target input) still references an unknown node id. -/
theorem C2_dangling_reference_in_final_binds (reg : FunctionRegistry) (cfg : DagConfig)
    (hn : nodesOk reg cfg) (he : edgesKeysOk cfg)
    (hd : ∃ tp ∈ bindsOf cfg, ¬ isNodeId cfg tp.1 ∨ ∃ ps ∈ tp.2, ¬ isNodeId cfg ps.2) :
    ∃ b, ¬ isNodeId cfg b ∧
      json_to_dag reg cfg =
        .error (.valueError ("Error creating DAG: Unknown node reference: " ++ b)) :=
  json_to_dag_err_dangling reg cfg hn he hd

/-- C2 witness: an edge to the unknown target "ghost" makes the build fail with
the structural unknown-node-reference error. -/
theorem C2_witness :
    (nodesOk testRegistry danglingTargetConfig ∧ edgesKeysOk danglingTargetConfig ∧
      ∃ tp ∈ bindsOf danglingTargetConfig, ¬ isNodeId danglingTargetConfig tp.1 ∨
        ∃ ps ∈ tp.2, ¬ isNodeId danglingTargetConfig ps.2) ∧
    (∃ b, ¬ isNodeId danglingTargetConfig b ∧
      json_to_dag testRegistry danglingTargetConfig =
        .error (.valueError ("Error creating DAG: Unknown node reference: " ++ b))) :=
  ⟨⟨by decide, by decide, by decide⟩,
    C2_dangling_reference_in_final_binds testRegistry danglingTargetConfig
      (by decide) (by decide) (by decide)⟩

/-- C3: every graph returned by json_to_dag has exactly the binding map that the
spec fallback order prescribes: each edge contributes a binding whose target
parameter is its targetInput field when present, else its sourceOutput field
when present, else the literal string "value". -/
theorem C3_target_input_fallback (reg : FunctionRegistry) (cfg : DagConfig) (dag : Dag)
    (h : json_to_dag reg cfg = .ok dag) :
    dag.binds = bindsSpec cfg := by
  rw [json_to_dag_eq] at h
  by_cases hne : (configNodes cfg).isEmpty = true
  · rw [if_pos hne] at h
    simp at h
  · rw [if_neg hne] at h
    cases hbf : buildFuncsAux reg [] (configNodes cfg) with
    | error e =>
      rw [hbf, exbind_err] at h
      simp at h
    | ok funcs =>
      rw [hbf, exbind_ok] at h
      cases hbb : buildBindsAux [] (configEdges cfg) with
      | error e =>
        rw [hbb, exbind_err] at h
        simp at h
      | ok binds =>
        rw [hbb, exbind_ok] at h
        cases hmk : mkDAG funcs binds with
        | error m =>
          rw [hmk] at h
          simp at h
        | ok d =>
          rw [hmk] at h
          simp only [Except.ok.injEq] at h
          obtain ⟨hd, _⟩ := mkDAG_ok_inv hmk
          rw [← h, hd]
          show binds = bindsSpec cfg
          rw [buildBindsAux_ok_inv _ _ _ hbb]
          exact bindsOfAux_eq_spec (configEdges cfg) []

/-- C3 witness: the chained two-node description with an explicit targetInput
"a" builds into a graph whose binding map matches the spec fallback order. -/
theorem C3_witness :
    json_to_dag testRegistry chainedConfig = .ok chainedDag ∧
    chainedDag.binds = bindsSpec chainedConfig :=
  ⟨rfl, C3_target_input_fallback testRegistry chainedConfig chainedDag rfl⟩

/-- C4: when a node parameter has no internal binding and both a global input
and a node-scoped override map supply it, argument resolution returns the
node-scoped value, not the global one. -/
theorem C4_node_scoped_override_wins (binds : List (String × List (String × String)))
    (computed inputs : List (String × Value)) (n p : String)
    (m : List (String × Value)) (x g : Value)
    (h1 : dlookup ((dlookup binds n).getD []) p = none)
    (h2 : dlookup inputs n = some (.vmap m))
    (h3 : dlookup m p = some x)
    (_hg : dlookup inputs p = some g) :
    resolveParam binds computed inputs n p = .ok x := by
  have hov : nodeOverride inputs n p = some x := by
    unfold nodeOverride
    rw [h2]
    exact h3
  unfold resolveParam
  rw [h1, hov]

/-- C4 witness: with a global b and a node-scoped override for step2 binding b,
resolution for step2's parameter b yields the override value. -/
theorem C4_witness :
    (dlookup ((dlookup ([] : List (String × List (String × String))) "step2").getD []) "b" =
        none ∧
      dlookup [("b", Value.int 99), ("step2", Value.vmap [("b", Value.int 2)])] "step2" =
        some (.vmap [("b", Value.int 2)]) ∧
      dlookup [("b", Value.int 2)] "b" = some (Value.int 2) ∧
      dlookup [("b", Value.int 99), ("step2", Value.vmap [("b", Value.int 2)])] "b" =
        some (Value.int 99)) ∧
    resolveParam [] []
      [("b", Value.int 99), ("step2", Value.vmap [("b", Value.int 2)])]
      "step2" "b" = .ok (Value.int 2) :=
  ⟨⟨rfl, rfl, rfl, rfl⟩,
    C4_node_scoped_override_wins [] []
      [("b", Value.int 99), ("step2", Value.vmap [("b", Value.int 2)])]
      "step2" "b" [("b", Value.int 2)] (Value.int 2) (Value.int 99) rfl rfl rfl rfl⟩

/-- C5: a single-node description bound to the registered add function, with no
edges and inputs a=5, b=3, executes to a success result whose value is 8 and
whose dag_name is the description's name. -/
theorem C5_single_add_node_executes (nm : String) :
    execute_from_config testRegistry (addConfig nm) [("a", .int 5), ("b", .int 3)] =
      { status := "success", result := some (.int 8), error := none, dag_name := nm } := rfl

/-- C6: a description containing a node whose function name does not resolve in
the registry makes the build fail with a structural error whose message names
both the node id and the function name. -/
theorem C6_unknown_function_reported (reg : FunctionRegistry) (cfg : DagConfig)
    (hkeys : ∀ nd ∈ configNodes cfg, nd.id.isSome = true ∧ nd.function.isSome = true)
    (hbad : ∃ nd ∈ configNodes cfg, funcUnresolvedB reg nd = true) :
    ∃ nid fn, (∃ nd ∈ configNodes cfg, nd.id = some nid ∧ nd.function = some fn) ∧
      dlookup reg.functions fn = none ∧
      json_to_dag reg cfg = .error (.valueError
        ("Function \x27" ++ fn ++ "\x27 not found in registry for node \x27" ++
          nid ++ "\x27")) := by
  obtain ⟨nid, fn, hmem, hnone, hrun⟩ :=
    buildFuncsAux_err_of reg (configNodes cfg) [] hkeys hbad
  refine ⟨nid, fn, hmem, hnone, ?_⟩
  have hne : (configNodes cfg).isEmpty = false := by
    obtain ⟨nd, hnd, _⟩ := hbad
    cases hcn : configNodes cfg with
    | nil =>
      rw [hcn] at hnd
      simp at hnd
    | cons a t => rfl
  rw [json_to_dag_eq, hne]
  simp only [Bool.false_eq_true, if_false]
  rw [hrun, exbind_err]

/-- C6 witness: a node requesting the unregistered function "nonexistent" makes
the build fail with the message naming node1 and nonexistent. -/
theorem C6_witness :
    ((∀ nd ∈ configNodes badFunctionConfig,
        nd.id.isSome = true ∧ nd.function.isSome = true) ∧
      ∃ nd ∈ configNodes badFunctionConfig, funcUnresolvedB testRegistry nd = true) ∧
    (∃ nid fn,
      (∃ nd ∈ configNodes badFunctionConfig, nd.id = some nid ∧ nd.function = some fn) ∧
      dlookup testRegistry.functions fn = none ∧
      json_to_dag testRegistry badFunctionConfig = .error (.valueError
        ("Function \x27" ++ fn ++ "\x27 not found in registry for node \x27" ++
          nid ++ "\x27"))) :=
  ⟨⟨by decide, by decide⟩,
    C6_unknown_function_reported testRegistry badFunctionConfig (by decide) (by decide)⟩

/-- C7: a description whose nodes sequence is empty always fails to build with
the structural error "DAG must have at least one node", whatever its other
fields hold, and no graph is returned. -/
theorem C7_empty_nodes_rejected (reg : FunctionRegistry) (cfg : DagConfig)
    (h : cfg.nodes = some []) :
    json_to_dag reg cfg = .error (.valueError "DAG must have at least one node") := by
  rw [json_to_dag_eq]
  rw [show configNodes cfg = [] from by unfold configNodes; rw [h]; rfl]
  rfl

/-- C7 witness: the concrete empty-node description is rejected. -/
theorem C7_witness :
    emptyNodesConfig.nodes = some [] ∧
    json_to_dag testRegistry emptyNodesConfig =
      .error (.valueError "DAG must have at least one node") :=
  ⟨rfl, C7_empty_nodes_rejected testRegistry emptyNodesConfig rfl⟩

/-- C8: two descriptions identical except for their params field build to the
same result: the builder reads params but its output never depends on it. -/
theorem C8_params_do_not_affect_build (reg : FunctionRegistry) (cfg : DagConfig)
    (p : Option (List (String × List (String × Value)))) :
    json_to_dag reg { cfg with params := p } = json_to_dag reg cfg := rfl

/-- C9: execute_from_config is total and never propagates a failure: the result
is a tagged dictionary whose status is "success" carrying a result or "error"
carrying a message, and whose dag_name is the description's name field,
defaulting to "unnamed" when absent — for every description, however
malformed, and every input mapping. -/
theorem C9_execute_from_config_total (reg : FunctionRegistry) (cfg : DagConfig)
    (inputs : List (String × Value)) :
    ((execute_from_config reg cfg inputs).status = "success" ∧
      ((execute_from_config reg cfg inputs).result).isSome = true ∧
      (execute_from_config reg cfg inputs).error = none ∨
     (execute_from_config reg cfg inputs).status = "error" ∧
      ((execute_from_config reg cfg inputs).error).isSome = true ∧
      (execute_from_config reg cfg inputs).result = none) ∧
    (execute_from_config reg cfg inputs).dag_name = cfg.name.getD "unnamed" := by
  unfold execute_from_config
  cases (json_to_dag reg cfg).bind (fun dag => execute_dag dag inputs) with
  | ok v => exact ⟨Or.inl ⟨rfl, rfl, rfl⟩, rfl⟩
  | error e => exact ⟨Or.inr ⟨rfl, rfl, rfl⟩, rfl⟩

/-- C10: every registry state reachable through register and unregister keeps
the function table and the metadata table keyed by exactly the same names, so
get_function succeeds exactly when get_metadata does; and registering a
duplicate name without override is rejected with the already-registered
error. -/
theorem C10_registry_tables_in_sync (r : FunctionRegistry) (h : Reaches r) :
    r.functions.map Prod.fst = r.metadata.map Prod.fst ∧
    (∀ n, exOk (r.get_function n) = exOk (r.get_metadata n)) ∧
    (∀ n f, (dlookup r.functions n).isSome = true →
      r.register n f false = .error (.valueError
        ("Function \x27" ++ n ++ "\x27 already registered. Use override=True to replace."))) := by
  have hkeys := reaches_keys_eq h
  refine ⟨hkeys, ?_, ?_⟩
  · intro n
    rw [exOk_get_function, exOk_get_metadata]
    exact dlookup_isSome_congr hkeys n
  · intro n f hn
    unfold FunctionRegistry.register
    rw [hn]
    rfl

/-- C10 witness: a registry reached by registering add has function and
metadata lookup succeed together. -/
theorem C10_witness :
    Reaches regOne ∧ exOk (regOne.get_function "add") = exOk (regOne.get_metadata "add") :=
  have hreach : Reaches regOne :=
    Reaches.step_register (b := false) Reaches.empty rfl
  ⟨hreach, (C10_registry_tables_in_sync regOne hreach).2.1 "add"⟩

end AppMeshed
